import Mathlib

/-!
# Verification of the Spellcaster Academy gesture-input subsystem

Shallow embedding of the camera-input recognizer state machine
(`src/vision/camera_input.py`) and the world-scene letter dispatcher
(`src/scenes/world.py`, `src/entities/enemy.py`), with proofs of the
behavioural claims about them.

Conventions of the embedding:
* Wall-clock times and durations are rationals (`ℚ`); the source uses
  Python floats only for elapsed-time comparisons and progress ratios.
* The thread-safe `queue.Queue` of confirmed letters is a `List Char`
  with `put` appending at the tail and `get_nowait` popping the head.
* Distances: the source compares `pygame.Vector2.distance_to` values
  (Euclidean).  All uses are comparisons between distances, and
  comparing nonnegative Euclidean distances is order-equivalent to
  comparing their squares, so the embedding uses the rational squared
  distance `dist2`.
-/

namespace Spellcaster

/-- The three detection states of `CameraInput`
(`STATE_WAITING`, `STATE_HOLDING`, `STATE_DEBOUNCING`). -/
inductive DetectionState where
  | waiting
  | holding
  | debouncing
deriving DecidableEq, Repr

/-- The mutable recognizer state touched by `CameraInput._update_state`,
`CameraInput.__init__` and `CameraInput.get_pending_letters`. -/
structure CameraState where
  state : DetectionState
  currentLetter : Option Char
  holdStartTime : Option ℚ
  currentDetectedLetter : Option Char
  holdProgress : ℚ
  letterQueue : List Char
deriving DecidableEq, Repr

/-- The recognizer state established by `CameraInput.__init__`. -/
def initCameraState : CameraState :=
  { state := .waiting
    currentLetter := none
    holdStartTime := none
    currentDetectedLetter := none
    holdProgress := 0
    letterQueue := [] }

/-- Embedding of `CameraInput._update_state`, one frame of the state machine.
`holdTime` is `self.hold_time`, `detectedLetter` the per-frame
classification, `currentTime` the `time.time()` sampled on entry.
In the `STATE_HOLDING` same-letter branch the source computes
`current_time - self._hold_start_time`; under the reachability
invariant (see `holdStartTime` claims) the start time is present, and
the embedding reads it with `Option.getD 0` to stay total.  The source
enqueues `self._current_letter`, which in that branch equals the
detected letter `d` (the branch is guarded by
`detected_letter != self._current_letter` being false). -/
def updateState (holdTime : ℚ) (s : CameraState)
    (detectedLetter : Option Char) (currentTime : ℚ) : CameraState :=
  match s.state with
  | .waiting =>
    match detectedLetter with
    | some _ =>
      { s with state := .holding
               currentLetter := detectedLetter
               holdStartTime := some currentTime
               currentDetectedLetter := detectedLetter
               holdProgress := 0 }
    | none =>
      { s with currentDetectedLetter := none
               holdProgress := 0 }
  | .holding =>
    match detectedLetter with
    | none =>
      { s with state := .waiting
               currentLetter := none
               holdStartTime := none
               currentDetectedLetter := none
               holdProgress := 0 }
    | some d =>
      if some d ≠ s.currentLetter then
        { s with currentLetter := some d
                 holdStartTime := some currentTime
                 currentDetectedLetter := some d
                 holdProgress := 0 }
      else
        let holdDuration := currentTime - s.holdStartTime.getD 0
        if holdDuration ≥ holdTime then
          { s with letterQueue := s.letterQueue ++ [d]
                   state := .debouncing
                   holdProgress := 1 }
        else
          { s with holdProgress := min 1 (holdDuration / holdTime) }
  | .debouncing =>
    match detectedLetter with
    | none =>
      { s with state := .waiting
               currentLetter := none
               holdStartTime := none
               currentDetectedLetter := none
               holdProgress := 0 }
    | some _ =>
      { s with currentDetectedLetter := detectedLetter }

/-- Driving the state machine through a finite sequence of frames,
each a per-frame classification paired with its wall-clock time. -/
def runUpdates (holdTime : ℚ) (s : CameraState)
    (frames : List (Option Char × ℚ)) : CameraState :=
  frames.foldl (fun st f => updateState holdTime st f.1 f.2) s

/-- The drain loop of `CameraInput.get_pending_letters`: repeatedly
`get_nowait` the head of the queue, appending it to `letters`, until
the queue is empty; returns the collected letters and the emptied
queue. -/
def drainLoop : List Char → List Char → List Char × List Char
  | [], letters => (letters, [])
  | l :: rest, letters => drainLoop rest (letters ++ [l])

/-- Embedding of `CameraInput.get_pending_letters`: returns all pending confirmed
letters and the queue left behind (always empty). -/
def getPendingLetters (q : List Char) : List Char × List Char :=
  drainLoop q []

/-- Embedding of `queue.Queue.put`: enqueue at the tail. -/
def putLetter (q : List Char) (c : Char) : List Char :=
  q ++ [c]

/-! ## The world-scene letter dispatcher -/

/-- A 2-D position with rational coordinates (`pygame.Vector2`). -/
structure Vec2 where
  x : ℚ
  y : ℚ
deriving DecidableEq, Repr

/-- Squared Euclidean distance.  The source only ever compares
`distance_to` values, and comparing nonnegative Euclidean distances is
order-equivalent to comparing their squares, so the embedding compares
`dist2` wherever the source compares `distance_to`. -/
def dist2 (a b : Vec2) : ℚ :=
  (a.x - b.x) * (a.x - b.x) + (a.y - b.y) * (a.y - b.y)

/-- A ground enemy as seen by the dispatcher: position, assigned
letter tag and liveness (`Enemy.pos`, `Enemy.letter`,
`Enemy.is_alive`). -/
structure Enemy where
  pos : Vec2
  letter : Char
  isAlive : Bool
deriving DecidableEq, Repr

/-- A flying undine as seen by the dispatcher (`Undine.pos`,
`Undine.letter`, `Undine.alive`). -/
structure Undine where
  pos : Vec2
  letter : Char
  alive : Bool
deriving DecidableEq, Repr

/-- The `closest = None; closest_dist = inf; for e in l: if dist <
closest_dist: …` loop shared by `find_closest_enemy_by_letter` and
`WorldScene._find_closest_undine_by_letter`, over an arbitrary element
type with `key` the distance measure. -/
def closestStep {α : Type} (key : α → ℚ) (acc : Option α) (e : α) : Option α :=
  match acc with
  | none => some e
  | some c => if key e < key c then some e else some c

/-- The fold realizing the nearest-candidate loop: starting from
`closest = None`, each element strictly closer than the running best
replaces it. -/
def closestBy {α : Type} (key : α → ℚ) (l : List α) : Option α :=
  l.foldl (closestStep key) none

/-- Embedding of `find_enemies_by_letter` (src/entities/enemy.py): all alive
enemies whose letter matches, case-insensitively. -/
def find_enemies_by_letter (enemies : List Enemy) (letter : Char) : List Enemy :=
  let letter := letter.toUpper
  enemies.filter (fun e => e.isAlive && e.letter == letter)

/-- Embedding of `find_closest_enemy_by_letter` (src/entities/enemy.py): the
closest alive matching enemy, or `none`. -/
def find_closest_enemy_by_letter (enemies : List Enemy) (letter : Char)
    (fromPos : Vec2) : Option Enemy :=
  closestBy (fun e => dist2 fromPos e.pos) (find_enemies_by_letter enemies letter)

/-- A spawned spell projectile, as built by
`SpellProjectile.create_targeted(player.pos, target.pos, spell_type,
letter)`. -/
structure Spell where
  sourcePos : Vec2
  targetPos : Vec2
  spellType : String
  targetLetter : Char
deriving DecidableEq, Repr

/-- The `SPELL_TYPES` list from src/config/settings.py. -/
def SPELL_TYPES : List String :=
  ["fireball", "ice", "earth", "nature", "air", "arcane", "lightning"]

/-- The slice of `WorldScene` (plus its player and camera handle)
touched by `_process_camera_input` and `_handle_camera_letter`.
`playerBlocking` is `player.is_blocking` (set by
`player.start_block()`), `playerCastTarget` records the position
passed to `player.play_cast_toward` (the cast animation),
`cameraAvailable` is `camera_input is not None and
camera_input.is_available()`, and `cameraQueue` is the recognizer's
confirmed-letter queue read through `get_pending_letters`. -/
structure World where
  playerAlive : Bool
  playerPos : Vec2
  playerBlocking : Bool
  playerCastTarget : Option Vec2
  currentWaveIndex : ℕ
  enemies : List Enemy
  undines : List Undine
  spells : List Spell
  spellTypeIndex : ℕ
  noTargetTimer : ℚ
  noTargetLetter : Option Char
  cameraAvailable : Bool
  cameraQueue : List Char
deriving DecidableEq, Repr

/-- Embedding of `WorldScene._find_closest_undine_by_letter`: the closest alive
undine with matching letter (case-insensitive). -/
def find_closest_undine_by_letter (w : World) (letter : Char) : Option Undine :=
  let letter := letter.toUpper
  let matching := w.undines.filter (fun u => u.alive && u.letter == letter)
  closestBy (fun u => dist2 w.playerPos u.pos) matching

/-- Embedding of `WorldScene._next_spell_type`: the current spell type of the
rotation, advancing the index modulo `len(SPELL_TYPES)`. -/
def nextSpellType (w : World) : String × World :=
  (SPELL_TYPES.getD w.spellTypeIndex "",
   { w with spellTypeIndex := (w.spellTypeIndex + 1) % SPELL_TYPES.length })

/-- Embedding of `WorldScene._handle_camera_letter`: dispatch one confirmed letter.
Dead player: dropped.  `'B'` (case-insensitive): block command, gated
on `current_wave_index >= 1`, no target search.  Otherwise: nearest
matching ground enemy and nearest matching undine are resolved, the
globally nearer of the two (ties to the enemy, since the source keeps
the enemy unless `dist_undine < dist_enemy`) receives a targeted
spell and the player plays its cast animation; with no candidate the
1.5-second no-target notice is set. -/
def handle_camera_letter (w : World) (letter : Char) : World :=
  if !w.playerAlive then w
  else if letter.toUpper == 'B' then
    if 1 ≤ w.currentWaveIndex then { w with playerBlocking := true }
    else w
  else
    let target := find_closest_enemy_by_letter w.enemies letter w.playerPos
    let targetUndine := find_closest_undine_by_letter w letter
    let chosen : Option Enemy × Option Undine :=
      match target, targetUndine with
      | some t, some u =>
        if dist2 w.playerPos u.pos < dist2 w.playerPos t.pos then (none, some u)
        else (some t, none)
      | t, u => (t, u)
    match chosen with
    | (some t, _) =>
      let (spellType, w) := nextSpellType w
      { w with spells := w.spells ++ [⟨w.playerPos, t.pos, spellType, letter⟩]
               playerCastTarget := some t.pos }
    | (none, some u) =>
      let (spellType, w) := nextSpellType w
      { w with spells := w.spells ++ [⟨w.playerPos, u.pos, spellType, letter⟩]
               playerCastTarget := some u.pos }
    | (none, none) =>
      { w with noTargetTimer := 3 / 2
               noTargetLetter := some letter }

/-- The no-target feedback countdown at the top of
`WorldScene._process_camera_input`: while the timer is positive it
decreases by `dt`, and on reaching zero the remembered letter is
cleared. -/
def tickNoTargetTimer (w : World) (dt : ℚ) : World :=
  if 0 < w.noTargetTimer then
    let t := w.noTargetTimer - dt
    if t ≤ 0 then { w with noTargetTimer := t, noTargetLetter := none }
    else { w with noTargetTimer := t }
  else w

/-- Embedding of `WorldScene._process_camera_input`: tick the no-target timer;
return early when no camera is available; otherwise drain all pending
confirmed letters and dispatch each in FIFO order. -/
def process_camera_input (w : World) (dt : ℚ) : World :=
  let w := tickNoTargetTimer w dt
  if !w.cameraAvailable then w
  else
    let drained := getPendingLetters w.cameraQueue
    drained.1.foldl handle_camera_letter { w with cameraQueue := drained.2 }

/-! ## Recognizer startup and availability -/

/-- The availability surface of `CameraInput`: `_available` and
`_error_message`, read through `is_available` and
`get_error_message`. -/
structure CameraStatus where
  available : Bool
  errorMessage : Option String
deriving DecidableEq, Repr

/-- Outcomes of the I/O actions attempted during recognizer startup,
abstracting the filesystem, `pickle`, MediaPipe and the capture
device. -/
structure StartupEnv where
  modelFileExists : Bool
  modelLoadError : Option String
  landmarkerFileExists : Bool
  detectorInitError : Option String
  cameraOpens : Bool
deriving DecidableEq, Repr

/-- The startup sequence of `CameraInput._detection_loop`:
`_load_model` (a missing `model.p` raises `FileNotFoundError`, caught
and recorded; any other unpickling failure is caught and recorded),
then `_init_detector` (explicit existence check on
`hand_landmarker.task`, then detector construction with exceptions
caught and recorded), then opening the capture device.  Every failure
returns from the loop with `_available = False` and a message; only
full success publishes `_available = True`.  The whole loop body runs
inside `try/except` on a daemon thread, so no path raises into the
caller of `start()` — which the totality of this function mirrors. -/
def detectionLoopStartup (env : StartupEnv) : CameraStatus :=
  if !env.modelFileExists then
    { available := false, errorMessage := some "Model file not found (model.p)" }
  else
    match env.modelLoadError with
    | some e =>
      { available := false, errorMessage := some ("Error loading model: " ++ e) }
    | none =>
      if !env.landmarkerFileExists then
        { available := false, errorMessage := some "Hand landmarker model not found" }
      else
        match env.detectorInitError with
        | some e =>
          { available := false
            errorMessage := some ("Error initializing detector: " ++ e) }
        | none =>
          if !env.cameraOpens then
            { available := false, errorMessage := some "Could not open camera" }
          else
            { available := true, errorMessage := none }

/-! ## Queue lemmas -/

/-- The drain loop collects the whole queue, in order, after the
accumulator, and leaves the queue empty. -/
lemma drainLoop_spec (q : List Char) : ∀ acc, drainLoop q acc = (acc ++ q, []) := by
  induction q with
  | nil => intro acc; simp [drainLoop]
  | cons l rest ih =>
    intro acc
    rw [drainLoop, ih (acc ++ [l])]
    simp

/-- Enqueuing a burst of letters appends them, in order, to the tail
of the queue. -/
lemma foldl_putLetter (ls : List Char) : ∀ q, ls.foldl putLetter q = q ++ ls := by
  induction ls with
  | nil => intro q; simp
  | cons c rest ih =>
    intro q
    rw [List.foldl_cons, ih (putLetter q c)]
    simp [putLetter]

/-- **C4.** A single drain returns the whole queue oldest-first
(enqueue order) and empties it: draining a queue `q` yields `(q, [])`;
after any burst of letters is `put` onto a queue, one drain returns
the original contents followed by the burst in enqueue order; and a
second drain with no intervening enqueues returns the empty list. -/
theorem C4_drain_returns_fifo_and_empties :
    (∀ q : List Char, getPendingLetters q = (q, [])) ∧
    (∀ (q ls : List Char),
        getPendingLetters (ls.foldl putLetter q) = (q ++ ls, [])) ∧
    (∀ q : List Char, getPendingLetters (getPendingLetters q).2 = ([], [])) := by
  refine ⟨fun q => ?_, fun q ls => ?_, fun q => ?_⟩
  · rw [getPendingLetters, drainLoop_spec]; simp
  · rw [getPendingLetters, foldl_putLetter, drainLoop_spec]; simp
  · rw [getPendingLetters, drainLoop_spec, getPendingLetters, drainLoop_spec]
    simp

/-! ## Single-step facts about the recognizer state machine -/

/-- **C2.** In `Holding` on letter `c` with hold start `t0`, a frame
again detecting `c` at time `t`: below `holdTime` nothing is enqueued,
the published progress is the elapsed fraction capped at `1`, and the
state stays `Holding`; at or beyond `holdTime`, `c` is enqueued
exactly once (one copy appended), the state becomes `Debouncing`, and
the progress is `1`. -/
theorem C2_holding_same_letter_confirm (holdTime : ℚ) (s : CameraState)
    (c : Char) (t t0 : ℚ)
    (hst : s.state = .holding) (hcur : s.currentLetter = some c)
    (h0 : s.holdStartTime = some t0) :
    (t - t0 < holdTime →
      (updateState holdTime s (some c) t).letterQueue = s.letterQueue ∧
      (updateState holdTime s (some c) t).holdProgress
        = min 1 ((t - t0) / holdTime) ∧
      (updateState holdTime s (some c) t).state = .holding) ∧
    (holdTime ≤ t - t0 →
      (updateState holdTime s (some c) t).letterQueue = s.letterQueue ++ [c] ∧
      (updateState holdTime s (some c) t).state = .debouncing ∧
      (updateState holdTime s (some c) t).holdProgress = 1) := by
  constructor
  · intro h
    simp [updateState, hst, hcur, h0, h.not_le]
  · intro h
    simp [updateState, hst, hcur, h0, h]

/-- A witness for C2: concrete holding state, `holdTime = 1/2`,
elapsed `1/4` below and elapsed `1` above the threshold. -/
theorem C2_witness :
    ((1 : ℚ) / 4 - 0 < 1 / 2 →
      (updateState (1 / 2)
        { initCameraState with
            state := .holding, currentLetter := some 'A',
            holdStartTime := some 0 } (some 'A') (1 / 4)).letterQueue
        = ({ initCameraState with
              state := .holding, currentLetter := some 'A',
              holdStartTime := some 0 } : CameraState).letterQueue ∧
      (updateState (1 / 2)
        { initCameraState with
            state := .holding, currentLetter := some 'A',
            holdStartTime := some 0 } (some 'A') (1 / 4)).holdProgress
        = min 1 (((1 : ℚ) / 4 - 0) / (1 / 2)) ∧
      (updateState (1 / 2)
        { initCameraState with
            state := .holding, currentLetter := some 'A',
            holdStartTime := some 0 } (some 'A') (1 / 4)).state = .holding) ∧
    ((1 : ℚ) / 2 ≤ 1 / 4 - 0 →
      (updateState (1 / 2)
        { initCameraState with
            state := .holding, currentLetter := some 'A',
            holdStartTime := some 0 } (some 'A') (1 / 4)).letterQueue
        = ({ initCameraState with
              state := .holding, currentLetter := some 'A',
              holdStartTime := some 0 } : CameraState).letterQueue ++ ['A'] ∧
      (updateState (1 / 2)
        { initCameraState with
            state := .holding, currentLetter := some 'A',
            holdStartTime := some 0 } (some 'A') (1 / 4)).state = .debouncing ∧
      (updateState (1 / 2)
        { initCameraState with
            state := .holding, currentLetter := some 'A',
            holdStartTime := some 0 } (some 'A') (1 / 4)).holdProgress = 1) :=
  C2_holding_same_letter_confirm (1 / 2)
    { initCameraState with
        state := .holding, currentLetter := some 'A', holdStartTime := some 0 }
    'A' (1 / 4) 0 rfl rfl rfl

/-- Any step of the state machine either leaves the queue unchanged or
appends exactly the letter detected in that frame, one copy at the
tail. -/
lemma updateState_queue_cases (holdTime : ℚ) (s : CameraState)
    (d : Option Char) (t : ℚ) :
    (updateState holdTime s d t).letterQueue = s.letterQueue ∨
    (∃ c : Char, d = some c ∧
      (updateState holdTime s d t).letterQueue = s.letterQueue ++ [c] ∧
      (updateState holdTime s d t).state = .debouncing) := by
  cases hs : s.state with
  | waiting => cases d <;> (left; simp [updateState, hs])
  | debouncing => cases d <;> (left; simp [updateState, hs])
  | holding =>
    cases d with
    | none => left; simp [updateState, hs]
    | some c =>
      by_cases hne : some c ≠ s.currentLetter
      · left; simp [updateState, hs, hne]
      · by_cases hd : holdTime ≤ t - s.holdStartTime.getD 0
        · right
          refine ⟨c, rfl, ?_, ?_⟩ <;> simp [updateState, hs, hne, hd]
        · left; simp [updateState, hs, hne, hd]

/-- **C3.** In `Holding` on letter `c`, a frame detecting a different
letter `c'` keeps the machine in `Holding` but on `c'`, restarts the
hold timer at the frame's time, resets the published progress to `0`,
and enqueues nothing — and since any enqueue ever appends exactly the
letter detected in that frame, `c` cannot be enqueued for the
abandoned episode. -/
theorem C3_holding_switch_restarts (holdTime : ℚ) (s : CameraState)
    (c c' : Char) (t : ℚ)
    (hst : s.state = .holding) (hcur : s.currentLetter = some c)
    (hne : c' ≠ c) :
    (updateState holdTime s (some c') t).state = .holding ∧
    (updateState holdTime s (some c') t).currentLetter = some c' ∧
    (updateState holdTime s (some c') t).holdStartTime = some t ∧
    (updateState holdTime s (some c') t).holdProgress = 0 ∧
    (updateState holdTime s (some c') t).letterQueue = s.letterQueue ∧
    (∀ (s₂ : CameraState) (d : Option Char) (t₂ : ℚ),
      (updateState holdTime s₂ d t₂).letterQueue ≠ s₂.letterQueue →
      ∃ e : Char, d = some e ∧
        (updateState holdTime s₂ d t₂).letterQueue = s₂.letterQueue ++ [e]) := by
  have hg : (some c' ≠ s.currentLetter) := by simp [hcur, hne]
  refine ⟨?_, ?_, ?_, ?_, ?_, ?_⟩
  · simp [updateState, hst, hg]
  · simp [updateState, hst, hg]
  · simp [updateState, hst, hg]
  · simp [updateState, hst, hg]
  · simp [updateState, hst, hg]
  · intro s₂ d t₂ hq
    rcases updateState_queue_cases holdTime s₂ d t₂ with h | ⟨e, he, hqe, _⟩
    · exact absurd h hq
    · exact ⟨e, he, hqe⟩

/-- A witness for C3: holding `'A'`, a frame detects `'C'`. -/
theorem C3_witness :
    (updateState (1 / 2)
      { initCameraState with
          state := .holding, currentLetter := some 'A',
          holdStartTime := some 0 } (some 'C') (1 / 4)).state = .holding ∧
    (updateState (1 / 2)
      { initCameraState with
          state := .holding, currentLetter := some 'A',
          holdStartTime := some 0 } (some 'C') (1 / 4)).currentLetter = some 'C' ∧
    (updateState (1 / 2)
      { initCameraState with
          state := .holding, currentLetter := some 'A',
          holdStartTime := some 0 } (some 'C') (1 / 4)).holdStartTime
      = some (1 / 4) ∧
    (updateState (1 / 2)
      { initCameraState with
          state := .holding, currentLetter := some 'A',
          holdStartTime := some 0 } (some 'C') (1 / 4)).holdProgress = 0 ∧
    (updateState (1 / 2)
      { initCameraState with
          state := .holding, currentLetter := some 'A',
          holdStartTime := some 0 } (some 'C') (1 / 4)).letterQueue
      = ({ initCameraState with
            state := .holding, currentLetter := some 'A',
            holdStartTime := some 0 } : CameraState).letterQueue ∧
    (∀ (s₂ : CameraState) (d : Option Char) (t₂ : ℚ),
      (updateState (1 / 2) s₂ d t₂).letterQueue ≠ s₂.letterQueue →
      ∃ e : Char, d = some e ∧
        (updateState (1 / 2) s₂ d t₂).letterQueue = s₂.letterQueue ++ [e]) :=
  C3_holding_switch_restarts (1 / 2)
    { initCameraState with
        state := .holding, currentLetter := some 'A', holdStartTime := some 0 }
    'A' 'C' (1 / 4) rfl rfl (by decide)

/-- A step from `Debouncing` on a present hand (any detected letter)
changes neither the queue nor the state. -/
lemma updateState_debouncing_step (holdTime : ℚ) (s : CameraState)
    (d : Option Char) (t : ℚ) (hs : s.state = .debouncing) (hd : d ≠ none) :
    (updateState holdTime s d t).letterQueue = s.letterQueue ∧
    (updateState holdTime s d t).state = .debouncing := by
  cases d with
  | none => exact absurd rfl hd
  | some c => constructor <;> simp [updateState, hs]

/-- Over a run of frames that all detect some letter, a machine in
`Debouncing` stays in `Debouncing` with an unchanged queue. -/
lemma runUpdates_debouncing (holdTime : ℚ) (frames : List (Option Char × ℚ)) :
    ∀ s : CameraState, s.state = .debouncing →
      (∀ f ∈ frames, f.1 ≠ none) →
      (runUpdates holdTime s frames).letterQueue = s.letterQueue ∧
      (runUpdates holdTime s frames).state = .debouncing := by
  induction frames with
  | nil => intro s hs _; exact ⟨rfl, hs⟩
  | cons f fs ih =>
    intro s hs hall
    have hstep := updateState_debouncing_step holdTime s f.1 f.2 hs
      (hall f (List.mem_cons_self f fs))
    have hrest := ih (updateState holdTime s f.1 f.2) hstep.2
      (fun g hg => hall g (List.mem_cons_of_mem f hg))
    rw [runUpdates] at hrest ⊢
    rw [List.foldl_cons]
    exact ⟨hrest.1.trans hstep.1, hrest.2⟩

/-- Over a run of frames that all detect some letter, the queue grows
by at most one entry: once a letter fires, the machine is debouncing
and cannot fire again before a `none` frame. -/
lemma runUpdates_queue_growth (holdTime : ℚ) (frames : List (Option Char × ℚ)) :
    ∀ s : CameraState, (∀ f ∈ frames, f.1 ≠ none) →
      (runUpdates holdTime s frames).letterQueue.length
        ≤ s.letterQueue.length + 1 := by
  induction frames with
  | nil => intro s _; simp [runUpdates]
  | cons f fs ih =>
    intro s hall
    have hall' : ∀ g ∈ fs, g.1 ≠ none :=
      fun g hg => hall g (List.mem_cons_of_mem f hg)
    have hrun : runUpdates holdTime s (f :: fs)
        = runUpdates holdTime (updateState holdTime s f.1 f.2) fs := by
      rw [runUpdates, runUpdates, List.foldl_cons]
    rcases updateState_queue_cases holdTime s f.1 f.2 with hq | ⟨c, _, hq, hdeb⟩
    · have := ih (updateState holdTime s f.1 f.2) hall'
      rw [hq] at this
      rw [hrun]
      exact this
    · have hrest := runUpdates_debouncing holdTime fs
        (updateState holdTime s f.1 f.2) hdeb hall'
      rw [hrun, hrest.1, hq]
      simp

/-- **C1.** Per hold episode, at most one enqueue: a step that changes
the queue leaves the machine in `Debouncing`; from `Debouncing`, any
frame still detecting a letter enqueues nothing and stays
`Debouncing`, while a `none` frame returns the machine to `Waiting`;
consequently, over any contiguous run of frames that all detect some
letter, the queue grows by at most one letter. -/
theorem C1_at_most_one_enqueue_per_hold (holdTime : ℚ) :
    (∀ (s : CameraState) (d : Option Char) (t : ℚ),
      (updateState holdTime s d t).letterQueue ≠ s.letterQueue →
      (updateState holdTime s d t).state = .debouncing) ∧
    (∀ (s : CameraState) (c : Char) (t : ℚ), s.state = .debouncing →
      (updateState holdTime s (some c) t).letterQueue = s.letterQueue ∧
      (updateState holdTime s (some c) t).state = .debouncing) ∧
    (∀ (s : CameraState) (t : ℚ), s.state = .debouncing →
      (updateState holdTime s none t).state = .waiting) ∧
    (∀ (s : CameraState) (frames : List (Option Char × ℚ)),
      (∀ f ∈ frames, f.1 ≠ none) →
      (runUpdates holdTime s frames).letterQueue.length
        ≤ s.letterQueue.length + 1) := by
  refine ⟨?_, ?_, ?_, ?_⟩
  · intro s d t hq
    rcases updateState_queue_cases holdTime s d t with h | ⟨c, _, _, hdeb⟩
    · exact absurd h hq
    · exact hdeb
  · intro s c t hs
    exact updateState_debouncing_step holdTime s (some c) t hs (by simp)
  · intro s t hs
    simp [updateState, hs]
  · intro s frames hall
    exact runUpdates_queue_growth holdTime frames s hall

/-- A witness for C1: a run of five `'A'` frames sampled every `3/20`
seconds with `holdTime = 1/2` grows the queue of the freshly
constructed recognizer by at most one letter. -/
theorem C1_witness :
    (runUpdates (1 / 2) initCameraState
      [(some 'A', 0), (some 'A', 3 / 20), (some 'A', 6 / 20),
       (some 'A', 9 / 20), (some 'A', 12 / 20)]).letterQueue.length
      ≤ initCameraState.letterQueue.length + 1 :=
  (C1_at_most_one_enqueue_per_hold (1 / 2)).2.2.2 initCameraState
    [(some 'A', 0), (some 'A', 3 / 20), (some 'A', 6 / 20),
     (some 'A', 9 / 20), (some 'A', 12 / 20)] (by decide)

/-! ## The Holding reachability invariant -/

/-- The invariant of claim C10: in `Holding`, both the current letter
and the hold start time are present. -/
def HoldingInv (s : CameraState) : Prop :=
  s.state = .holding → s.currentLetter.isSome ∧ s.holdStartTime.isSome

/-- One step of the machine preserves the `Holding` invariant. -/
lemma holdingInv_step (holdTime : ℚ) (s : CameraState) (d : Option Char)
    (t : ℚ) (h : HoldingInv s) : HoldingInv (updateState holdTime s d t) := by
  cases hs : s.state with
  | waiting =>
    cases d with
    | none => intro hcon; simp [updateState, hs] at hcon
    | some c => intro _; simp [updateState, hs]
  | debouncing =>
    cases d with
    | none => intro hcon; simp [updateState, hs] at hcon
    | some c => intro hcon; simp [updateState, hs] at hcon
  | holding =>
    cases d with
    | none => intro hcon; simp [updateState, hs] at hcon
    | some c =>
      by_cases hne : some c ≠ s.currentLetter
      · intro _; simp [updateState, hs, hne]
      · by_cases hd : holdTime ≤ t - s.holdStartTime.getD 0
        · intro hcon
          have : (updateState holdTime s (some c) t).state = .debouncing := by
            simp [updateState, hs, hne, hd]
          rw [hcon] at this
          exact absurd this (by simp)
        · intro _
          have hq := h hs
          constructor <;> simp [updateState, hs, hne, hd, hq.1, hq.2]

/-- The `Holding` invariant holds in every state reachable from
construction. -/
lemma holdingInv_run (holdTime : ℚ) (frames : List (Option Char × ℚ)) :
    ∀ s : CameraState, HoldingInv s → HoldingInv (runUpdates holdTime s frames) := by
  induction frames with
  | nil => intro s h; exact h
  | cons f fs ih =>
    intro s h
    have : runUpdates holdTime s (f :: fs)
        = runUpdates holdTime (updateState holdTime s f.1 f.2) fs := by
      rw [runUpdates, runUpdates, List.foldl_cons]
    rw [this]
    exact ih _ (holdingInv_step holdTime s f.1 f.2 h)

/-- **C10.** In every recognizer state reachable from construction by
any sequence of frames, being in `Holding` implies the current letter
and the hold start time are both present, so the `Holding` branch's
elapsed-time subtraction and letter comparison are well-defined. -/
theorem C10_holding_fields_present (holdTime : ℚ)
    (frames : List (Option Char × ℚ))
    (hs : (runUpdates holdTime initCameraState frames).state = .holding) :
    (runUpdates holdTime initCameraState frames).currentLetter ≠ none ∧
    (runUpdates holdTime initCameraState frames).holdStartTime ≠ none := by
  have hinv : HoldingInv (runUpdates holdTime initCameraState frames) :=
    holdingInv_run holdTime frames initCameraState
      (by intro hcon; simp [initCameraState] at hcon)
  have h := hinv hs
  exact ⟨by simp [Option.isSome_iff_ne_none] at h; exact h.1,
         by simp [Option.isSome_iff_ne_none] at h; exact h.2⟩

/-- A witness for C10: one `'A'` frame from construction lands in
`Holding` with both fields present. -/
theorem C10_witness :
    (runUpdates (1 / 2) initCameraState [(some 'A', 0)]).currentLetter ≠ none ∧
    (runUpdates (1 / 2) initCameraState [(some 'A', 0)]).holdStartTime ≠ none :=
  C10_holding_fields_present (1 / 2) [(some 'A', 0)] (by decide)

/-! ## Nearest-candidate selection lemmas -/

/-- Folding the nearest-candidate step from a non-empty accumulator:
the result is the accumulator or a list element, is no farther than
the accumulator, and is no farther than any list element. -/
lemma closestStep_foldl_spec {α : Type} (key : α → ℚ) :
    ∀ (l : List α) (c e : α),
      l.foldl (closestStep key) (some c) = some e →
      (e = c ∨ e ∈ l) ∧ key e ≤ key c ∧ ∀ x ∈ l, key e ≤ key x := by
  intro l
  induction l with
  | nil =>
    intro c e h
    simp [List.foldl_nil] at h
    simp [h]
  | cons a l ih =>
    intro c e h
    rw [List.foldl_cons] at h
    by_cases hlt : key a < key c
    · rw [show closestStep key (some c) a = some a by simp [closestStep, hlt]] at h
      obtain ⟨hmem, hle, hall⟩ := ih a e h
      refine ⟨Or.inr (by rcases hmem with h' | h' <;> simp [h']), hle.trans hlt.le, ?_⟩
      intro x hx
      rcases List.mem_cons.mp hx with h' | h'
      · rw [h']; exact hle
      · exact hall x h'
    · rw [show closestStep key (some c) a = some c by simp [closestStep, hlt]] at h
      obtain ⟨hmem, hle, hall⟩ := ih c e h
      refine ⟨by rcases hmem with h' | h' <;> simp [h'], hle, ?_⟩
      intro x hx
      rcases List.mem_cons.mp hx with h' | h'
      · rw [h']; exact hle.trans (not_lt.mp hlt)
      · exact hall x h'

/-- A selected nearest candidate is a member of the list and no
farther than every member. -/
lemma closestBy_spec {α : Type} (key : α → ℚ) (l : List α) (e : α)
    (h : closestBy key l = some e) :
    e ∈ l ∧ ∀ x ∈ l, key e ≤ key x := by
  cases l with
  | nil => simp [closestBy] at h
  | cons a l =>
    rw [closestBy, List.foldl_cons,
      show closestStep key none a = some a from rfl] at h
    obtain ⟨hmem, hle, hall⟩ := closestStep_foldl_spec key l a e h
    refine ⟨by rcases hmem with h' | h' <;> simp [h'], ?_⟩
    intro x hx
    rcases List.mem_cons.mp hx with h' | h'
    · rw [h']; exact hle
    · exact hall x h'

/-- The nearest-candidate fold from a non-empty accumulator never
returns `none`. -/
lemma closestStep_foldl_some {α : Type} (key : α → ℚ) :
    ∀ (l : List α) (c : α), ∃ e, l.foldl (closestStep key) (some c) = some e := by
  intro l
  induction l with
  | nil => intro c; exact ⟨c, rfl⟩
  | cons a l ih =>
    intro c
    rw [List.foldl_cons]
    by_cases hlt : key a < key c
    · rw [show closestStep key (some c) a = some a by simp [closestStep, hlt]]
      exact ih a
    · rw [show closestStep key (some c) a = some c by simp [closestStep, hlt]]
      exact ih c

/-! ## Dispatcher claims -/

/-- The world after a targeted attack on position `tpos`: the spell
rotation advances, one targeted projectile is appended, and the player
plays its cast animation toward the target. -/
def attackOutcome (w : World) (letter : Char) (tpos : Vec2) : World :=
  { w with spellTypeIndex := (w.spellTypeIndex + 1) % SPELL_TYPES.length
           spells := w.spells ++
             [⟨w.playerPos, tpos, SPELL_TYPES.getD w.spellTypeIndex "", letter⟩]
           playerCastTarget := some tpos }

/-- **C5.** With a live player, the letter `'B'` (case-insensitive)
performs no target search and spawns no attack: when the wave index is
at least 1 the world changes only by the start-block command to the
player, and when the wave index is 0 the letter is silently dropped,
the world unchanged — no block, no attack, no no-target notice. -/
theorem C5_block_letter_gated (w : World) (letter : Char)
    (halive : w.playerAlive = true) (hB : letter.toUpper = 'B') :
    (1 ≤ w.currentWaveIndex →
      handle_camera_letter w letter = { w with playerBlocking := true }) ∧
    (w.currentWaveIndex = 0 → handle_camera_letter w letter = w) := by
  constructor
  · intro hwave
    simp [handle_camera_letter, halive, hB, hwave]
  · intro hwave
    simp [handle_camera_letter, halive, hB, hwave]

/-- A witness for C5: a lowercase `'b'` with wave index 1 issues the
block; the same world at wave index 0 drops the letter. -/
theorem C5_witness :
    (1 ≤ ({ playerAlive := true, playerPos := ⟨0, 0⟩, playerBlocking := false
            playerCastTarget := none, currentWaveIndex := 1, enemies := []
            undines := [], spells := [], spellTypeIndex := 0, noTargetTimer := 0
            noTargetLetter := none, cameraAvailable := true
            cameraQueue := [] } : World).currentWaveIndex →
      handle_camera_letter
        { playerAlive := true, playerPos := ⟨0, 0⟩, playerBlocking := false
          playerCastTarget := none, currentWaveIndex := 1, enemies := []
          undines := [], spells := [], spellTypeIndex := 0, noTargetTimer := 0
          noTargetLetter := none, cameraAvailable := true, cameraQueue := [] } 'b'
        = { playerAlive := true, playerPos := ⟨0, 0⟩, playerBlocking := true
            playerCastTarget := none, currentWaveIndex := 1, enemies := []
            undines := [], spells := [], spellTypeIndex := 0, noTargetTimer := 0
            noTargetLetter := none, cameraAvailable := true, cameraQueue := [] }) ∧
    (({ playerAlive := true, playerPos := ⟨0, 0⟩, playerBlocking := false
        playerCastTarget := none, currentWaveIndex := 1, enemies := []
        undines := [], spells := [], spellTypeIndex := 0, noTargetTimer := 0
        noTargetLetter := none, cameraAvailable := true
        cameraQueue := [] } : World).currentWaveIndex = 0 →
      handle_camera_letter
        { playerAlive := true, playerPos := ⟨0, 0⟩, playerBlocking := false
          playerCastTarget := none, currentWaveIndex := 1, enemies := []
          undines := [], spells := [], spellTypeIndex := 0, noTargetTimer := 0
          noTargetLetter := none, cameraAvailable := true, cameraQueue := [] } 'b'
        = { playerAlive := true, playerPos := ⟨0, 0⟩, playerBlocking := false
            playerCastTarget := none, currentWaveIndex := 1, enemies := []
            undines := [], spells := [], spellTypeIndex := 0, noTargetTimer := 0
            noTargetLetter := none, cameraAvailable := true, cameraQueue := [] }) :=
  C5_block_letter_gated
    { playerAlive := true, playerPos := ⟨0, 0⟩, playerBlocking := false
      playerCastTarget := none, currentWaveIndex := 1, enemies := []
      undines := [], spells := [], spellTypeIndex := 0, noTargetTimer := 0
      noTargetLetter := none, cameraAvailable := true, cameraQueue := [] }
    'b' rfl (by decide)

/-- A concrete world with a matching ground enemy at distance 50 and
a matching flying undine at distance 30 from the player. -/
def scenarioFarNear : World :=
  { playerAlive := true, playerPos := ⟨0, 0⟩, playerBlocking := false
    playerCastTarget := none, currentWaveIndex := 1
    enemies := [⟨⟨50, 0⟩, 'D', true⟩]
    undines := [⟨⟨30, 0⟩, 'D', true⟩]
    spells := [], spellTypeIndex := 0, noTargetTimer := 0
    noTargetLetter := none, cameraAvailable := true, cameraQueue := [] }

/-- A concrete world whose matching ground enemy and flying undine
are exactly equidistant (both at distance 50) from the player. -/
def scenarioTie : World :=
  { playerAlive := true, playerPos := ⟨0, 0⟩, playerBlocking := false
    playerCastTarget := none, currentWaveIndex := 1
    enemies := [⟨⟨50, 0⟩, 'D', true⟩]
    undines := [⟨⟨0, 50⟩, 'D', true⟩]
    spells := [], spellTypeIndex := 0, noTargetTimer := 0
    noTargetLetter := none, cameraAvailable := true, cameraQueue := [] }

/-- **C6.** Target resolution: each pool's candidate is a live,
letter-matching (case-insensitive) member of its pool that is nearest
to the player; when both pools yield a candidate, the strictly nearer
undine wins, otherwise (including exact ties) the ground enemy wins;
concretely, a matching ground enemy at distance 50 against a matching
undine at distance 30 loses to the undine, and at exactly equal
distances the ground enemy is attacked. -/
theorem C6_nearest_target_selection :
    (∀ (enemies : List Enemy) (letter : Char) (fromPos : Vec2) (e : Enemy),
      find_closest_enemy_by_letter enemies letter fromPos = some e →
      e ∈ enemies ∧ e.isAlive = true ∧ e.letter = letter.toUpper ∧
        ∀ e' ∈ enemies, e'.isAlive = true → e'.letter = letter.toUpper →
          dist2 fromPos e.pos ≤ dist2 fromPos e'.pos) ∧
    (∀ (w : World) (letter : Char) (u : Undine),
      find_closest_undine_by_letter w letter = some u →
      u ∈ w.undines ∧ u.alive = true ∧ u.letter = letter.toUpper ∧
        ∀ u' ∈ w.undines, u'.alive = true → u'.letter = letter.toUpper →
          dist2 w.playerPos u.pos ≤ dist2 w.playerPos u'.pos) ∧
    (∀ (w : World) (letter : Char) (tE : Enemy) (tU : Undine),
      w.playerAlive = true → letter.toUpper ≠ 'B' →
      find_closest_enemy_by_letter w.enemies letter w.playerPos = some tE →
      find_closest_undine_by_letter w letter = some tU →
      (dist2 w.playerPos tU.pos < dist2 w.playerPos tE.pos →
        handle_camera_letter w letter = attackOutcome w letter tU.pos) ∧
      (dist2 w.playerPos tE.pos ≤ dist2 w.playerPos tU.pos →
        handle_camera_letter w letter = attackOutcome w letter tE.pos)) ∧
    (handle_camera_letter scenarioFarNear 'D').playerCastTarget
      = some ⟨30, 0⟩ ∧
    (handle_camera_letter scenarioTie 'D').playerCastTarget
      = some ⟨50, 0⟩ := by
  refine ⟨?_, ?_, ?_, ?_, ?_⟩
  · intro enemies letter fromPos e h
    obtain ⟨hmem, hmin⟩ := closestBy_spec _ _ _ h
    rw [find_enemies_by_letter, List.mem_filter] at hmem
    have hp := hmem.2
    simp only [Bool.and_eq_true, beq_iff_eq] at hp
    refine ⟨hmem.1, hp.1, hp.2, ?_⟩
    intro e' hmem' halive' hletter'
    exact hmin e' (by
      rw [find_enemies_by_letter, List.mem_filter]
      exact ⟨hmem', by simp [halive', hletter']⟩)
  · intro w letter u h
    obtain ⟨hmem, hmin⟩ := closestBy_spec _ _ _ h
    rw [List.mem_filter] at hmem
    have hp := hmem.2
    simp only [Bool.and_eq_true, beq_iff_eq] at hp
    refine ⟨hmem.1, hp.1, hp.2, ?_⟩
    intro u' hmem' halive' hletter'
    exact hmin u' (by
      rw [List.mem_filter]
      exact ⟨hmem', by simp [halive', hletter']⟩)
  · intro w letter tE tU halive hnB htE htU
    constructor
    · intro hlt
      simp [handle_camera_letter, halive, hnB, htE, htU, hlt,
        attackOutcome, nextSpellType]
    · intro hle
      simp [handle_camera_letter, halive, hnB, htE, htU, not_lt.mpr hle,
        attackOutcome, nextSpellType]
  · have hE : find_closest_enemy_by_letter scenarioFarNear.enemies 'D'
        scenarioFarNear.playerPos = some ⟨⟨50, 0⟩, 'D', true⟩ := rfl
    have hU : find_closest_undine_by_letter scenarioFarNear 'D'
        = some ⟨⟨30, 0⟩, 'D', true⟩ := rfl
    have hlt : dist2 scenarioFarNear.playerPos (⟨30, 0⟩ : Vec2)
        < dist2 scenarioFarNear.playerPos (⟨50, 0⟩ : Vec2) := by
      norm_num [dist2, scenarioFarNear]
    simp [handle_camera_letter, scenarioFarNear, hE, hU, hlt,
      find_closest_enemy_by_letter, find_enemies_by_letter,
      find_closest_undine_by_letter, closestBy, closestStep] at hlt ⊢
    simp [hlt]
  · have hE : find_closest_enemy_by_letter scenarioTie.enemies 'D'
        scenarioTie.playerPos = some ⟨⟨50, 0⟩, 'D', true⟩ := rfl
    have hU : find_closest_undine_by_letter scenarioTie 'D'
        = some ⟨⟨0, 50⟩, 'D', true⟩ := rfl
    have hnlt : ¬ dist2 (⟨0, 0⟩ : Vec2) (⟨0, 50⟩ : Vec2)
        < dist2 (⟨0, 0⟩ : Vec2) (⟨50, 0⟩ : Vec2) := by
      norm_num [dist2]
    simp [handle_camera_letter, scenarioTie, hE, hU, hnlt, nextSpellType,
      find_closest_enemy_by_letter, find_enemies_by_letter,
      find_closest_undine_by_letter, closestBy, closestStep]

/-- A witness for C6: in the distance-50-versus-30 world, the
cross-pool comparison applied to the two concrete candidates. -/
theorem C6_witness :
    (dist2 scenarioFarNear.playerPos (⟨30, 0⟩ : Vec2)
        < dist2 scenarioFarNear.playerPos (⟨50, 0⟩ : Vec2) →
      handle_camera_letter scenarioFarNear 'D'
        = attackOutcome scenarioFarNear 'D' ⟨30, 0⟩) ∧
    (dist2 scenarioFarNear.playerPos (⟨50, 0⟩ : Vec2)
        ≤ dist2 scenarioFarNear.playerPos (⟨30, 0⟩ : Vec2) →
      handle_camera_letter scenarioFarNear 'D'
        = attackOutcome scenarioFarNear 'D' ⟨50, 0⟩) :=
  C6_nearest_target_selection.2.2.1 scenarioFarNear 'D'
    ⟨⟨50, 0⟩, 'D', true⟩ ⟨⟨30, 0⟩, 'D', true⟩
    rfl (by decide) rfl rfl

/-- A concrete world with a live player and no live matching entity
in either pool. -/
def scenarioNoTarget : World :=
  { playerAlive := true, playerPos := ⟨0, 0⟩, playerBlocking := false
    playerCastTarget := none, currentWaveIndex := 1, enemies := []
    undines := [], spells := [], spellTypeIndex := 0, noTargetTimer := 0
    noTargetLetter := none, cameraAvailable := true, cameraQueue := [] }

/-- **C7.** A non-`'B'` letter with no matching candidate in either
pool spawns no projectile and no cast animation: the world changes
only by the no-target notice, whose display duration is exactly
`1.5` seconds; the notice then auto-expires — while the timer stays
positive it merely counts down keeping the letter, and the tick on
which it reaches zero clears the remembered letter, with no retry. -/
theorem C7_no_target_notice (w : World) (letter : Char)
    (halive : w.playerAlive = true) (hnB : letter.toUpper ≠ 'B')
    (hE : find_closest_enemy_by_letter w.enemies letter w.playerPos = none)
    (hU : find_closest_undine_by_letter w letter = none) :
    handle_camera_letter w letter
      = { w with noTargetTimer := 3 / 2, noTargetLetter := some letter } ∧
    (∀ (w₂ : World) (dt : ℚ), 0 < w₂.noTargetTimer →
      w₂.noTargetTimer ≤ dt →
      (tickNoTargetTimer w₂ dt).noTargetLetter = none ∧
      (tickNoTargetTimer w₂ dt).noTargetTimer = w₂.noTargetTimer - dt) ∧
    (∀ (w₂ : World) (dt : ℚ), 0 < w₂.noTargetTimer - dt →
      0 < w₂.noTargetTimer →
      (tickNoTargetTimer w₂ dt).noTargetTimer = w₂.noTargetTimer - dt ∧
      (tickNoTargetTimer w₂ dt).noTargetLetter = w₂.noTargetLetter) := by
  refine ⟨?_, ?_, ?_⟩
  · simp [handle_camera_letter, halive, hnB, hE, hU]
  · intro w₂ dt hpos hle
    have hz : w₂.noTargetTimer - dt ≤ 0 := by linarith
    constructor <;> simp [tickNoTargetTimer, hpos, hz]
  · intro w₂ dt hpos2 hpos
    have hz : ¬ w₂.noTargetTimer - dt ≤ 0 := by linarith
    constructor <;> simp [tickNoTargetTimer, hpos, hz]

/-- A witness for C7: the letter `'F'` in the empty-pools world, then
the resulting 1.5-second notice expiring under a 2-second tick. -/
theorem C7_witness :
    (handle_camera_letter scenarioNoTarget 'F'
      = { scenarioNoTarget with
            noTargetTimer := 3 / 2, noTargetLetter := some 'F' } ∧
    (∀ (w₂ : World) (dt : ℚ), 0 < w₂.noTargetTimer →
      w₂.noTargetTimer ≤ dt →
      (tickNoTargetTimer w₂ dt).noTargetLetter = none ∧
      (tickNoTargetTimer w₂ dt).noTargetTimer = w₂.noTargetTimer - dt) ∧
    (∀ (w₂ : World) (dt : ℚ), 0 < w₂.noTargetTimer - dt →
      0 < w₂.noTargetTimer →
      (tickNoTargetTimer w₂ dt).noTargetTimer = w₂.noTargetTimer - dt ∧
      (tickNoTargetTimer w₂ dt).noTargetLetter = w₂.noTargetLetter)) :=
  C7_no_target_notice scenarioNoTarget 'F' rfl (by decide) rfl rfl

/-- A concrete world at wave index 0 (block not yet unlocked) with a
live player. -/
def scenarioGatedBlock : World :=
  { playerAlive := true, playerPos := ⟨0, 0⟩, playerBlocking := false
    playerCastTarget := none, currentWaveIndex := 0, enemies := []
    undines := [], spells := [], spellTypeIndex := 0, noTargetTimer := 0
    noTargetLetter := none, cameraAvailable := true, cameraQueue := [] }

/-- **C8 counterexample.** A confirmed `'B'` consumed at wave index 0
with a live player produces none of the three outcomes: no block
command is issued, no attack is spawned, and no no-target notice is
emitted — the letter is silently dropped, refuting "exactly one of
three outcomes" in every world state. -/
theorem C8_counterexample_gated_block_drops :
    (handle_camera_letter scenarioGatedBlock 'B').playerBlocking = false ∧
    (handle_camera_letter scenarioGatedBlock 'B').playerCastTarget = none ∧
    (handle_camera_letter scenarioGatedBlock 'B').spells = [] ∧
    (handle_camera_letter scenarioGatedBlock 'B').noTargetTimer = 0 ∧
    (handle_camera_letter scenarioGatedBlock 'B').noTargetLetter = none ∧
    handle_camera_letter scenarioGatedBlock 'B' = scenarioGatedBlock := by
  refine ⟨rfl, rfl, rfl, rfl, rfl, rfl⟩

/-- **C8 (amended).** When the player is alive and the letter is not
a still-gated `'B'`, dispatch produces exactly one of the three
outcomes: the block command (for `'B'` past the gate), a targeted
attack (one projectile appended and the cast animation played), or
the no-target notice; the outcomes are pairwise incompatible — the
first demands the letter be `'B'` while the others demand it not be,
and an attack world never equals a notice world since their spell
lists differ.  (Dead player or a gated `'B'` instead drop the letter
with no outcome.) -/
theorem C8_exactly_one_outcome (w : World) (letter : Char)
    (halive : w.playerAlive = true)
    (hgate : letter.toUpper = 'B' → 1 ≤ w.currentWaveIndex) :
    ((letter.toUpper = 'B' ∧
        handle_camera_letter w letter = { w with playerBlocking := true }) ∨
     (letter.toUpper ≠ 'B' ∧ ∃ tpos : Vec2,
        handle_camera_letter w letter = attackOutcome w letter tpos) ∨
     (letter.toUpper ≠ 'B' ∧
        handle_camera_letter w letter
          = { w with noTargetTimer := 3 / 2
                     noTargetLetter := some letter })) ∧
    (∀ tpos : Vec2,
      attackOutcome w letter tpos
        ≠ { w with noTargetTimer := 3 / 2, noTargetLetter := some letter }) := by
  constructor
  · by_cases hB : letter.toUpper = 'B'
    · exact Or.inl ⟨hB, by simp [handle_camera_letter, halive, hB, hgate hB]⟩
    · rcases htE : find_closest_enemy_by_letter w.enemies letter w.playerPos
        with _ | tE
      · rcases htU : find_closest_undine_by_letter w letter with _ | tU
        · refine Or.inr (Or.inr ⟨hB, ?_⟩)
          simp [handle_camera_letter, halive, hB, htE, htU]
        · refine Or.inr (Or.inl ⟨hB, tU.pos, ?_⟩)
          simp [handle_camera_letter, halive, hB, htE, htU,
            attackOutcome, nextSpellType]
      · rcases htU : find_closest_undine_by_letter w letter with _ | tU
        · refine Or.inr (Or.inl ⟨hB, tE.pos, ?_⟩)
          simp [handle_camera_letter, halive, hB, htE, htU,
            attackOutcome, nextSpellType]
        · by_cases hlt : dist2 w.playerPos tU.pos < dist2 w.playerPos tE.pos
          · refine Or.inr (Or.inl ⟨hB, tU.pos, ?_⟩)
            simp [handle_camera_letter, halive, hB, htE, htU, hlt,
              attackOutcome, nextSpellType]
          · refine Or.inr (Or.inl ⟨hB, tE.pos, ?_⟩)
            simp [handle_camera_letter, halive, hB, htE, htU, hlt,
              attackOutcome, nextSpellType]
  · intro tpos hcon
    have hlen := congrArg (fun v => v.spells.length) hcon
    simp [attackOutcome] at hlen

/-- A witness for C8 (amended): the letter `'F'` with empty pools and
a live player lands in exactly one outcome (the no-target notice). -/
theorem C8_witness :
    (('F'.toUpper = 'B' ∧
        handle_camera_letter scenarioNoTarget 'F'
          = { scenarioNoTarget with playerBlocking := true }) ∨
     ('F'.toUpper ≠ 'B' ∧ ∃ tpos : Vec2,
        handle_camera_letter scenarioNoTarget 'F'
          = attackOutcome scenarioNoTarget 'F' tpos) ∨
     ('F'.toUpper ≠ 'B' ∧
        handle_camera_letter scenarioNoTarget 'F'
          = { scenarioNoTarget with
                noTargetTimer := 3 / 2, noTargetLetter := some 'F' })) ∧
    (∀ tpos : Vec2,
      attackOutcome scenarioNoTarget 'F' tpos
        ≠ { scenarioNoTarget with
              noTargetTimer := 3 / 2, noTargetLetter := some 'F' }) :=
  C8_exactly_one_outcome scenarioNoTarget 'F' rfl (fun h => absurd h (by decide))

/-! ## Recognizer availability degradation -/

/-- **C9.** If the classifier model file or the hand-landmarker model
file is missing, or the camera cannot be opened, startup (whose
failure paths all return normally rather than raise: the embedded
control flow is total) leaves the recognizer unavailable with a
non-empty human-readable error message; and whenever the recognizer is
unavailable, per-tick camera processing reduces to the notice-timer
upkeep alone — no letters are drained from the queue and no game-world
action is performed. -/
theorem C9_unavailable_is_noop (env : StartupEnv)
    (hfail : env.modelFileExists = false ∨ env.landmarkerFileExists = false ∨
      env.cameraOpens = false) :
    (detectionLoopStartup env).available = false ∧
    (∃ m : String, (detectionLoopStartup env).errorMessage = some m ∧ m ≠ "") ∧
    (∀ (w : World) (dt : ℚ), w.cameraAvailable = false →
      process_camera_input w dt = tickNoTargetTimer w dt ∧
      (process_camera_input w dt).cameraQueue = w.cameraQueue) := by
  have hframe : ∀ (w : World) (dt : ℚ),
      (tickNoTargetTimer w dt).cameraAvailable = w.cameraAvailable ∧
      (tickNoTargetTimer w dt).cameraQueue = w.cameraQueue := by
    intro w dt
    rw [tickNoTargetTimer]
    by_cases h1 : 0 < w.noTargetTimer
    · by_cases h2 : w.noTargetTimer - dt ≤ 0 <;> simp [h1, h2]
    · simp [h1]
  have hnoop : ∀ (w : World) (dt : ℚ), w.cameraAvailable = false →
      process_camera_input w dt = tickNoTargetTimer w dt ∧
      (process_camera_input w dt).cameraQueue = w.cameraQueue := by
    intro w dt hcam
    have hcam' : (tickNoTargetTimer w dt).cameraAvailable = false :=
      (hframe w dt).1.trans hcam
    have h1 : process_camera_input w dt = tickNoTargetTimer w dt := by
      rw [process_camera_input]
      simp [hcam']
    exact ⟨h1, by rw [h1]; exact (hframe w dt).2⟩
  refine ⟨?_, ?_, hnoop⟩
  · rw [detectionLoopStartup]
    cases hm : env.modelFileExists with
    | false => simp
    | true =>
      simp only [Bool.not_true, Bool.false_eq_true, if_false]
      cases env.modelLoadError with
      | some e => simp
      | none =>
        simp only
        cases hl : env.landmarkerFileExists with
        | false => simp
        | true =>
          simp only [Bool.not_true, Bool.false_eq_true, if_false]
          cases env.detectorInitError with
          | some e => simp
          | none =>
            simp only
            cases hc : env.cameraOpens with
            | false => simp
            | true =>
              exfalso
              rcases hfail with h | h | h
              · rw [hm] at h; exact Bool.noConfusion h
              · rw [hl] at h; exact Bool.noConfusion h
              · rw [hc] at h; exact Bool.noConfusion h
  · rw [detectionLoopStartup]
    cases hm : env.modelFileExists with
    | false => exact ⟨"Model file not found (model.p)", by simp, by decide⟩
    | true =>
      simp only [Bool.not_true, Bool.false_eq_true, if_false]
      cases env.modelLoadError with
      | some e =>
        refine ⟨"Error loading model: " ++ e, by simp, ?_⟩
        intro hcon
        have h2 := congrArg String.length hcon
        simp [String.length_append] at h2
        exact absurd h2.1 (by decide)
      | none =>
        simp only
        cases hl : env.landmarkerFileExists with
        | false => exact ⟨"Hand landmarker model not found", by simp, by decide⟩
        | true =>
          simp only [Bool.not_true, Bool.false_eq_true, if_false]
          cases env.detectorInitError with
          | some e =>
            refine ⟨"Error initializing detector: " ++ e, by simp, ?_⟩
            intro hcon
            have h2 := congrArg String.length hcon
            simp [String.length_append] at h2
            exact absurd h2.1 (by decide)
          | none =>
            simp only
            cases hc : env.cameraOpens with
            | false => exact ⟨"Could not open camera", by simp, by decide⟩
            | true =>
              exfalso
              rcases hfail with h | h | h
              · rw [hm] at h; exact Bool.noConfusion h
              · rw [hl] at h; exact Bool.noConfusion h
              · rw [hc] at h; exact Bool.noConfusion h

/-- A witness for C9: a missing classifier model file. -/
theorem C9_witness :
    (detectionLoopStartup
      { modelFileExists := false, modelLoadError := none
        landmarkerFileExists := true, detectorInitError := none
        cameraOpens := true }).available = false ∧
    (∃ m : String,
      (detectionLoopStartup
        { modelFileExists := false, modelLoadError := none
          landmarkerFileExists := true, detectorInitError := none
          cameraOpens := true }).errorMessage = some m ∧ m ≠ "") ∧
    (∀ (w : World) (dt : ℚ), w.cameraAvailable = false →
      process_camera_input w dt = tickNoTargetTimer w dt ∧
      (process_camera_input w dt).cameraQueue = w.cameraQueue) :=
  C9_unavailable_is_noop
    { modelFileExists := false, modelLoadError := none
      landmarkerFileExists := true, detectorInitError := none
      cameraOpens := true } (Or.inl rfl)

end Spellcaster
